import Mathlib

/-!
Verification development for the fastblog content-publishing backend
(`src/backend/src/services/{article,engagement,search}.rs` and
`src/backend/src/handlers/articles.rs`).

The relational store is modelled shallowly: the tables `articles`, `claps`
and `bookmarks` become lists of records, a conditional SQL `UPDATE` becomes
a `List.map` guarded by the translated `WHERE` predicate, `rows_affected`
becomes a `countP` of that predicate, and machine integers (`i32`/`i64`)
become `Int` (no arithmetic here approaches the overflow range).
String columns are lists of characters; strings are treated at the level
of their character sequences (the repository's slug and search logic is
exercised on ASCII data, and the model's character predicates are the
ASCII restrictions of the corresponding Rust ones).  Timestamps
(`TIMESTAMPTZ`) are modelled as integer epoch seconds.
-/

namespace Fastblog

/-- Characters of a SQL text column / Rust `String`. -/
abbrev Str := List Char

/-- Primary key of `users` (a UUID in the source; any infinite type works). -/
abbrev UserId := Nat

/-- Primary key of `articles` (a UUID in the source). -/
abbrev ArticleId := Nat

/-- Epoch seconds standing for `TIMESTAMPTZ`. -/
abbrev Time := Int

/-- `article_status` enum from `models/article.rs`. -/
inductive ArticleStatus where
  | draft
  | published
  | unlisted
  | archived
deriving DecidableEq, Repr

/-- A row of the `articles` table, following the `Article` model in
`models/article.rs`.  Columns that some write path can set to SQL `NULL`
(`title`, `tags`, `categories`, `is_member_only` are written from optional
request fields by `auto_save_draft`'s insert) are modelled as `Option`, so
that the `COALESCE` merges of the auto-save update keep their exact SQL
semantics. -/
structure Article where
  id : ArticleId
  title : Option Str
  subtitle : Option Str
  content : Str
  content_html : Str
  excerpt : Option Str
  featured_image_url : Option Str
  author_id : UserId
  publication_id : Option Nat
  status : ArticleStatus
  is_member_only : Option Bool
  is_featured : Bool
  paywall_position : Option Int
  slug : Str
  tags : Option (List Str)
  categories : Option (List Str)
  reading_time_minutes : Int
  claps_count : Int
  comments_count : Int
  bookmarks_count : Int
  views_count : Int
  reads_count : Int
  published_at : Option Time
  created_at : Time
  updated_at : Time
  last_auto_save : Option Time
  auto_save_version : Int
deriving DecidableEq, Repr

/-- A row of the `claps` table (`models/engagement.rs`): one row per
(user, article) pair holding a magnitude that the aggregation ignores. -/
structure Clap where
  user_id : UserId
  article_id : ArticleId
  clap_count : Int
deriving DecidableEq, Repr

/-- A row of the `bookmarks` table. -/
structure Bookmark where
  user_id : UserId
  article_id : ArticleId
deriving DecidableEq, Repr

/-- The slice of database state the verified operations touch. -/
structure DB where
  articles : List Article
  claps : List Clap
  bookmarks : List Bookmark
deriving DecidableEq, Repr

/-! ## ArticleService::publish_article (services/article.rs lines 263-285)

`UPDATE articles SET status = published, published_at = NOW(),
updated_at = NOW() WHERE id = $1 AND author_id = $2 AND status = draft`;
zero rows affected is reported as the single collapsed error
"Article not found, unauthorized, or already published". -/

/-- The `WHERE` clause of the conditional publish update. -/
def publishHit (article_id : ArticleId) (author_id : UserId) (a : Article) : Prop :=
  a.id = article_id ∧ a.author_id = author_id ∧ a.status = ArticleStatus.draft

instance (article_id : ArticleId) (author_id : UserId) (a : Article) :
    Decidable (publishHit article_id author_id a) := by
  unfold publishHit; infer_instance

/-- The `SET` clause of the publish update applied to one matching row. -/
def publishSet (now : Time) (a : Article) : Article :=
  { a with status := ArticleStatus.published, published_at := some now, updated_at := now }

/-- `publish_article`: runs the conditional update and reports success iff
`rows_affected` is nonzero (the `Err` on zero rows). -/
def publish_article (article_id : ArticleId) (author_id : UserId) (now : Time) (db : DB) :
    DB × Bool :=
  let updated := db.articles.map (fun a =>
    if publishHit article_id author_id a then publishSet now a else a)
  let affected := db.articles.countP (fun a => decide (publishHit article_id author_id a))
  ({ db with articles := updated }, decide (affected ≠ 0))

/-! ## EngagementService::clap_article (services/engagement.rs lines 21-76) -/

/-- The (user, article) key predicate used by the clap existence check,
delete and personal-state queries. -/
def clapMine (article_id : ArticleId) (user_id : UserId) (c : Clap) : Prop :=
  c.user_id = user_id ∧ c.article_id = article_id

instance (article_id : ArticleId) (user_id : UserId) (c : Clap) :
    Decidable (clapMine article_id user_id c) := by
  unfold clapMine; infer_instance

/-- `clap_article`: toggles the caller's clap row, then recomputes the
article's `claps_count` as `COUNT(*)` of clap rows and writes it back.
Returns `(total_claps, new_clap_count, is_clapped)`.  The request magnitude
is accepted but unused; the insert hard-codes `clap_count = 1`. -/
def clap_article (article_id : ArticleId) (user_id : UserId) (_request_count : Int) (db : DB) :
    DB × Int × Int × Bool :=
  let existing := db.claps.find? (fun c => decide (clapMine article_id user_id c))
  let next : List Clap × Int × Bool :=
    match existing with
    | some _ => (db.claps.filter (fun c => !(decide (clapMine article_id user_id c))), 0, false)
    | none => (db.claps ++ [⟨user_id, article_id, 1⟩], 1, true)
  let total : Int := next.1.countP (fun c => decide (c.article_id = article_id))
  let articles := db.articles.map (fun a =>
    if a.id = article_id then { a with claps_count := total } else a)
  ({ db with claps := next.1, articles := articles }, total, next.2.1, next.2.2)

/-- `get_user_clap_count`: 1 if a clap row for (user, article) exists, else 0;
its positivity is the viewer's personal "clapped" flag. -/
def get_user_clap_count (article_id : ArticleId) (user_id : UserId) (db : DB) : Int :=
  if db.claps.any (fun c => decide (clapMine article_id user_id c)) then 1 else 0

/-- Presence of the caller's clap row: the personal clapped-state. -/
def hasClapped (article_id : ArticleId) (user_id : UserId) (db : DB) : Bool :=
  db.claps.any (fun c => decide (clapMine article_id user_id c))

/-- `COUNT(*)` of clap rows for an article. -/
def clapRowCount (article_id : ArticleId) (db : DB) : Int :=
  db.claps.countP (fun c => decide (c.article_id = article_id))

/-- The `claps_count` stored on the article row, when the row exists. -/
def storedClapsCount (article_id : ArticleId) (db : DB) : Option Int :=
  (db.articles.find? (fun a => decide (a.id = article_id))).map Article.claps_count

/-! ## bookmark_article / unbookmark_article (handlers/articles.rs lines 351-541) -/

/-- Outcome reported by the bookmark handler after authentication. -/
inductive BookmarkOutcome where
  | notFound
  | alreadyBookmarked
  | bookmarked
deriving DecidableEq, Repr

/-- Outcome reported by the unbookmark handler after authentication. -/
inductive UnbookmarkOutcome where
  | removed
  | notBookmarked
deriving DecidableEq, Repr

/-- The (user, article) key predicate on bookmark rows. -/
def bookmarkMine (article_id : ArticleId) (user_id : UserId) (b : Bookmark) : Prop :=
  b.user_id = user_id ∧ b.article_id = article_id

instance (article_id : ArticleId) (user_id : UserId) (b : Bookmark) :
    Decidable (bookmarkMine article_id user_id b) := by
  unfold bookmarkMine; infer_instance

/-- The handler's existence check: the article must exist and be published. -/
def articleExistsPublished (article_id : ArticleId) (db : DB) : Bool :=
  db.articles.any (fun a => decide (a.id = article_id ∧ a.status = ArticleStatus.published))

/-- `bookmark_article`: 404 if the article is absent or unpublished;
no-op reporting already-bookmarked if the row exists; otherwise insert the
row and increment `bookmarks_count` by one. -/
def bookmark_article (article_id : ArticleId) (user_id : UserId) (db : DB) :
    DB × BookmarkOutcome :=
  if articleExistsPublished article_id db = false then (db, BookmarkOutcome.notFound)
  else if db.bookmarks.any (fun b => decide (bookmarkMine article_id user_id b)) then
    (db, BookmarkOutcome.alreadyBookmarked)
  else
    ({ db with
        bookmarks := db.bookmarks ++ [⟨user_id, article_id⟩],
        articles := db.articles.map (fun a =>
          if a.id = article_id then { a with bookmarks_count := a.bookmarks_count + 1 } else a) },
      BookmarkOutcome.bookmarked)

/-- `unbookmark_article`: delete the row; only when `rows_affected > 0`
run `UPDATE articles SET bookmarks_count = GREATEST(bookmarks_count - 1, 0)`. -/
def unbookmark_article (article_id : ArticleId) (user_id : UserId) (db : DB) :
    DB × UnbookmarkOutcome :=
  let affected := db.bookmarks.countP (fun b => decide (bookmarkMine article_id user_id b))
  let remaining := db.bookmarks.filter (fun b => !(decide (bookmarkMine article_id user_id b)))
  if affected > 0 then
    ({ db with
        bookmarks := remaining,
        articles := db.articles.map (fun a =>
          if a.id = article_id then { a with bookmarks_count := max (a.bookmarks_count - 1) 0 }
          else a) },
      UnbookmarkOutcome.removed)
  else
    ({ db with bookmarks := remaining }, UnbookmarkOutcome.notBookmarked)

/-- One authenticated engagement call against the bookmark endpoints. -/
inductive BookmarkCall where
  | add (article_id : ArticleId) (user_id : UserId)
  | remove (article_id : ArticleId) (user_id : UserId)
deriving DecidableEq, Repr

/-- Run a sequence of bookmark/unbookmark calls, keeping only the state. -/
def runBookmarkCalls (calls : List BookmarkCall) (db : DB) : DB :=
  calls.foldl (fun s call =>
    match call with
    | BookmarkCall.add aid uid => (bookmark_article aid uid s).1
    | BookmarkCall.remove aid uid => (unbookmark_article aid uid s).1) db

/-! ## String utilities shared by the article service

`HTML_TAG_REGEX` is `<[^>]*>` (each match replaced by one space),
`split_whitespace` splits on maximal whitespace runs, and `trim` removes
whitespace from both ends.  These are modelled on character lists; the
character classes are the ASCII restrictions of the Rust (Unicode) ones. -/

/-- Helper for the HTML-tag regex: drop characters up to and including the
first `>`; `none` when no `>` occurs (then `<[^>]*>` cannot match here). -/
def dropThroughGt : Str → Option Str
  | [] => none
  | c :: rest => if c = '>' then some rest else dropThroughGt rest

theorem dropThroughGt_length {l r : Str} (h : dropThroughGt l = some r) :
    r.length < l.length := by
  induction l with
  | nil => simp [dropThroughGt] at h
  | cons c rest ih =>
    rw [dropThroughGt] at h
    split at h
    · injection h with h2
      subst h2
      exact Nat.lt_succ_self _
    · exact Nat.lt_succ_of_lt (ih h)

/-- `HTML_TAG_REGEX.replace_all(content, " ")`: every `<[^>]*>` match
becomes a single space; a `<` with no closing `>` is left in place. -/
def stripHtml : Str → Str
  | [] => []
  | c :: rest =>
    if c = '<' then
      match h : dropThroughGt rest with
      | some rest2 => ' ' :: stripHtml rest2
      | none => '<' :: stripHtml rest
    else c :: stripHtml rest
termination_by l => l.length
decreasing_by
  · exact Nat.lt_succ_of_lt (dropThroughGt_length h)
  · exact Nat.lt_succ_self _
  · exact Nat.lt_succ_self _

/-- `str::split_whitespace`: the maximal non-whitespace runs, in order.
Built right-to-left: a whitespace character opens a fresh (empty) run, any
other character extends the current run, and empty runs are discarded. -/
def splitWs (l : Str) : List Str :=
  (l.foldr (fun c acc =>
    if c.isWhitespace then [] :: acc
    else match acc with
      | [] => [[c]]
      | w :: rest => (c :: w) :: rest) []).filter (fun w => !w.isEmpty)

/-- `str::trim`: strip whitespace from both ends. -/
def trimChars (l : Str) : Str :=
  ((l.dropWhile Char.isWhitespace).reverse.dropWhile Char.isWhitespace).reverse

/-- `ArticleService::calculate_reading_time`: word count of the
HTML-stripped text at 200 words per minute, floored at 1 minute. -/
def calculate_reading_time (content : Str) : Int :=
  Int.ofNat (max 1 ((splitWs (stripHtml content)).length / 200))

/-- `ArticleService::generate_excerpt`: HTML-strip, trim, and when longer
than `max_length` truncate to `max_length`, cut back to the last space if
one exists, and append `...`. -/
def generate_excerpt (content : Str) (max_length : Nat) : Str :=
  let text := trimChars (stripHtml content)
  if text.length ≤ max_length then text
  else
    let truncated := text.take max_length
    match truncated.reverse.findIdx? (fun c => c = ' ') with
    | some j => truncated.take (max_length - 1 - j) ++ ['.', '.', '.']
    | none => truncated ++ ['.', '.', '.']

/-! ## ArticleService::generate_slug (services/article.rs lines 29-42)

Lower-case the title, turn spaces into dashes, keep only alphanumerics and
dashes, collapse dash runs (regex `-+` replaced by `-`), trim dashes from
both ends.  Rust's `char::is_alphanumeric` and `to_lowercase` are Unicode;
the model is their ASCII restriction and the theorems about it assume an
ASCII title. -/

/-- The character filter of `generate_slug`: alphanumeric or dash. -/
def isSlugKeep (c : Char) : Bool := c.isAlphanum || c = '-'

/-- Regex `-+` replaced by `-`: collapse each run of dashes to one dash. -/
def collapseDashes (l : Str) : Str :=
  l.foldr (fun c acc => if c = '-' ∧ acc.head? = some '-' then acc else c :: acc) []

/-- Remove every trailing dash (the right half of `trim_matches('-')`). -/
def dropTrailingDashes : Str → Str
  | [] => []
  | c :: rest =>
    let r := dropTrailingDashes rest
    if r = [] ∧ c = '-' then [] else c :: r

/-- `generate_slug` itself. -/
def generate_slug (title : Str) : Str :=
  let lowered := title.map Char.toLower
  let dashed := lowered.map (fun c => if c = ' ' then '-' else c)
  let filtered := dashed.filter isSlugKeep
  dropTrailingDashes ((collapseDashes filtered).dropWhile (fun c => c = '-'))

/-- State of the `^[a-z0-9]+(-[a-z0-9]+)*$` matcher: a `[a-z0-9]` class
character. -/
def isLowerDigit (c : Char) : Bool := c.isLower || c.isDigit

mutual

/-- Matcher state after at least one class character of the current word:
accept at the end, recurse on a class character, and on a dash demand a
fresh word. -/
def slugWordRest : Str → Bool
  | [] => true
  | c :: rest => if c = '-' then slugWordStart rest else isLowerDigit c && slugWordRest rest

/-- Matcher state expecting the first class character of a word — the
start state of `^[a-z0-9]+(-[a-z0-9]+)*$`. -/
def slugWordStart : Str → Bool
  | [] => false
  | c :: rest => isLowerDigit c && slugWordRest rest

end

/-- Whole-string match of `^[a-z0-9]+(-[a-z0-9]+)*$`. -/
def matchesSlugShape (l : Str) : Bool := slugWordStart l

/-! ## ArticleService::auto_save_draft (services/article.rs lines 587-667) -/

/-- `AutoSaveDraftRequest` from `models/article.rs`. -/
structure AutoSaveDraftRequest where
  article_id : Option ArticleId
  title : Option Str
  subtitle : Option Str
  content : Str
  excerpt : Option Str
  featured_image_url : Option Str
  tags : Option (List Str)
  categories : Option (List Str)
  is_member_only : Option Bool
  paywall_position : Option Int
deriving DecidableEq, Repr

/-- The `WHERE id = $11 AND author_id = $12 AND status = 'draft'` guard of
the auto-save update. -/
def autoSaveWhere (article_id : ArticleId) (author_id : UserId) (a : Article) : Prop :=
  a.id = article_id ∧ a.author_id = author_id ∧ a.status = ArticleStatus.draft

instance (article_id : ArticleId) (author_id : UserId) (a : Article) :
    Decidable (autoSaveWhere article_id author_id a) := by
  unfold autoSaveWhere; infer_instance

/-- The `SET` clause of the auto-save update, one column per line of the
source query: `title`, `tags`, `categories` and `is_member_only` are
`COALESCE`-merged with the stored value; `subtitle`, `excerpt`,
`featured_image_url` and `paywall_position` are assigned the raw request
value; `content` and `content_html` are both assigned the raw request
content (`$3` twice, no sanitization). -/
def autoSaveSet (req : AutoSaveDraftRequest) (now : Time) (a : Article) : Article :=
  { a with
    title := req.title <|> a.title,
    subtitle := req.subtitle,
    content := req.content,
    content_html := req.content,
    excerpt := req.excerpt,
    featured_image_url := req.featured_image_url,
    tags := req.tags <|> a.tags,
    categories := req.categories <|> a.categories,
    is_member_only := req.is_member_only <|> a.is_member_only,
    paywall_position := req.paywall_position,
    updated_at := now,
    last_auto_save := some now,
    auto_save_version := a.auto_save_version + 1 }

/-- The row inserted by auto-save's create-new-draft branch: raw content in
both `content` and `content_html`, status draft, counters zero,
`auto_save_version = 1`.  The unique slug (`ensure_unique_slug "draft"`)
is an interaction with the store and is passed in. -/
def autoSaveNewRow (req : AutoSaveDraftRequest) (now : Time) (id : ArticleId) (slug : Str)
    (author_id : UserId) : Article :=
  { id := id, title := req.title, subtitle := req.subtitle, content := req.content,
    content_html := req.content, excerpt := req.excerpt,
    featured_image_url := req.featured_image_url, author_id := author_id,
    publication_id := none, status := ArticleStatus.draft,
    is_member_only := req.is_member_only, is_featured := false,
    paywall_position := req.paywall_position, slug := slug,
    tags := req.tags, categories := req.categories,
    reading_time_minutes := calculate_reading_time req.content,
    claps_count := 0, comments_count := 0, bookmarks_count := 0,
    views_count := 0, reads_count := 0, published_at := none,
    created_at := now, updated_at := now, last_auto_save := some now,
    auto_save_version := 1 }

/-- `auto_save_draft`: with an article id, run the guarded update; without
one, insert a fresh draft row and return its id. -/
def auto_save_draft (author_id : UserId) (req : AutoSaveDraftRequest) (now : Time)
    (new_id : ArticleId) (new_slug : Str) (db : DB) : DB × ArticleId :=
  match req.article_id with
  | some article_id =>
      ({ db with articles := db.articles.map (fun a =>
          if autoSaveWhere article_id author_id a then autoSaveSet req now a else a) },
        article_id)
  | none =>
      ({ db with articles := db.articles ++ [autoSaveNewRow req now new_id new_slug author_id] },
        new_id)

/-! ## ArticleService::create_article / update_article (content path) -/

/-- `CreateArticleRequest` from `models/article.rs`. -/
structure CreateArticleRequest where
  title : Str
  subtitle : Option Str
  content : Str
  excerpt : Option Str
  featured_image_url : Option Str
  publication_id : Option Nat
  tags : Option (List Str)
  categories : Option (List Str)
  is_member_only : Option Bool
  paywall_position : Option Int
  status : Option ArticleStatus
deriving DecidableEq, Repr

/-- The row inserted by `create_article` (lines 78-135): content sanitized
into `content_html`, reading time and default excerpt computed from the
sanitized HTML, counters zero, `auto_save_version = 1`, `published_at` set
only when the requested status is Published.  `sanitize_html` wraps the
external `ammonia::clean` collaborator and the unique slug allocation is a
store interaction; both are parameters. -/
def create_article_row (sanitize_html : Str → Str) (req : CreateArticleRequest)
    (id : ArticleId) (author_id : UserId) (unique_slug : Str) (now : Time) : Article :=
  let content_html := sanitize_html req.content
  let status := req.status.getD ArticleStatus.draft
  { id := id, title := some req.title, subtitle := req.subtitle, content := req.content,
    content_html := content_html,
    excerpt := some (match req.excerpt with
      | some e => e
      | none => generate_excerpt content_html 200),
    featured_image_url := req.featured_image_url, author_id := author_id,
    publication_id := req.publication_id, status := status,
    is_member_only := some (req.is_member_only.getD false), is_featured := false,
    paywall_position := req.paywall_position, slug := unique_slug,
    tags := some (req.tags.getD []), categories := some (req.categories.getD []),
    reading_time_minutes := calculate_reading_time content_html,
    claps_count := 0, comments_count := 0, bookmarks_count := 0,
    views_count := 0, reads_count := 0,
    published_at := if status = ArticleStatus.published then some now else none,
    created_at := now, updated_at := now, last_auto_save := some now,
    auto_save_version := 1 }

/-- The content branch of `update_article` (lines 230-238): re-sanitize,
recompute reading time, bump `updated_at`. -/
def update_article_content_set (sanitize_html : Str → Str) (content : Str) (now : Time)
    (a : Article) : Article :=
  { a with
    content := content,
    content_html := sanitize_html content,
    reading_time_minutes := calculate_reading_time (sanitize_html content),
    updated_at := now }

/-! ## Pagination of the three ranking reads

Feed (lines 872-884) and trending (lines 946-962) clamp
`limit.unwrap_or(20).min(100)` and `page.unwrap_or(1).max(1)`; keyword
search (search.rs lines 57-60) uses `limit.unwrap_or(20)` with no clamp and
computes `offset = ((page.unwrap_or(1) - 1) * limit).max(0)`. -/

/-- Effective page of `get_user_feed`. -/
def get_user_feed_page (page : Option Int) : Int := max (page.getD 1) 1

/-- Effective limit of `get_user_feed`. -/
def get_user_feed_limit (limit : Option Int) : Int := min (limit.getD 20) 100

/-- Effective page of `get_trending_articles`. -/
def get_trending_page (page : Option Int) : Int := max (page.getD 1) 1

/-- Effective limit of `get_trending_articles`. -/
def get_trending_limit (limit : Option Int) : Int := min (limit.getD 20) 100

/-- Effective limit of `search_articles_internal`: the request value as-is. -/
def search_articles_limit (limit : Option Int) : Int := limit.getD 20

/-- Effective offset of `search_articles_internal`. -/
def search_articles_offset (page limit : Option Int) : Int :=
  max ((page.getD 1 - 1) * limit.getD 20) 0

/-! ## ArticleService::get_trending_articles (lines 946-1028) -/

/-- Trending score from the `ORDER BY` expression:
`claps*3 + comments*2 + reads*1 + views*0.1` plus a boost of 10 exactly
when the article was published within the last 24 hours
(`EXTRACT(EPOCH FROM (NOW() - published_at)) / 3600 < 24`).  Rows with a
NULL `published_at` are excluded by the `WHERE` clause, so their boost
value is immaterial; the model gives them no boost. -/
def trending_score (now : Time) (a : Article) : ℚ :=
  (a.claps_count : ℚ) * 3 + (a.comments_count : ℚ) * 2 + (a.reads_count : ℚ) * 1
    + (a.views_count : ℚ) * (1 / 10)
    + (match a.published_at with
       | some t => if ((now : ℚ) - (t : ℚ)) / 3600 < 24 then 10 else 0
       | none => 0)

/-- The trending `WHERE` clause: published status, non-null `published_at`
inside the trailing window of `window` hours. -/
def trendingKeep (now : Time) (window : Int) (a : Article) : Bool :=
  decide (a.status = ArticleStatus.published) &&
    match a.published_at with
    | some t => decide (now - window * 3600 < t)
    | none => false

/-- The trending `ORDER BY`: score descending, ties broken by
`published_at` descending (`a` may precede `b` iff this holds). -/
def trendingLe (now : Time) (a b : Article) : Bool :=
  decide (trending_score now b < trending_score now a
    ∨ (trending_score now a = trending_score now b
        ∧ b.published_at.getD 0 ≤ a.published_at.getD 0))

/-- `get_trending_articles` as the list of article rows it returns: filter
by the time window, order by the scoring expression, paginate. -/
def get_trending_articles (now : Time) (page limit : Option Int)
    (time_window_hours : Option Int) (db : DB) : List Article :=
  let limitv := get_trending_limit limit
  let pagev := get_trending_page page
  let offset := (pagev - 1) * limitv
  let window := time_window_hours.getD 168
  let rows := db.articles.filter (trendingKeep now window)
  ((rows.mergeSort (trendingLe now)).drop offset.toNat).take limitv.toNat

/-! ## SearchService::search_articles_internal relevance score
(search.rs lines 69-154)

The SQL builds four LIKE patterns from the query `q`:
`$1 = %lower(q)%` (exact substring), `$2 = % lower(q) %` (space-delimited),
`$3 = lower(q)%` (starts-with), `$4 = %w1%w2%...%` over the
whitespace-split words of the raw `q` (multi-word).  All fields are
compared under `LOWER(...)`; `LIKE` on a NULL column is false. -/

/-- ASCII restriction of lower-casing a string. -/
def lowerStr (s : Str) : Str := s.map Char.toLower

/-- Substring test: semantics of `LIKE '%needle%'`. -/
def containsSub (needle : Str) : Str → Bool
  | [] => needle.isPrefixOf []
  | c :: rest => needle.isPrefixOf (c :: rest) || containsSub needle rest

/-- Drop everything up to and past the first occurrence of `w`; `none` when
`w` does not occur. -/
def dropAfterFirst (w : Str) : Str → Option Str
  | [] => if w.isPrefixOf ([] : Str) then some [] else none
  | c :: rest =>
    if w.isPrefixOf (c :: rest) then some ((c :: rest).drop w.length)
    else dropAfterFirst w rest

/-- Semantics of a `%w1%w2%...%` LIKE pattern: the words occur in order,
without overlap. -/
def chainMatch : List Str → Str → Bool
  | [], _ => true
  | w :: ws, s =>
    match dropAfterFirst w s with
    | some rest => chainMatch ws rest
    | none => false

/-- `LIKE` against a nullable column: false on NULL. -/
def optLike (f : Str → Bool) : Option Str → Bool
  | none => false
  | some s => f s

/-- The article relevance score of `search_articles_internal`, term by term
in source order: title 15/12/10, subtitle 8/6/5, content 6/4/2, author
username/display-name/bio 5/5/3, multi-word bonus 3 (title) and 2
(content). -/
def relevance_score (q : Str) (title : Str) (subtitle : Option Str) (content : Str)
    (username : Str) (display_name : Option Str) (bio : Option Str) : Int :=
  let ql := lowerStr q
  let exactp := fun s : Str => containsSub ql (lowerStr s)
  let wordp := fun s : Str => containsSub (' ' :: (ql ++ [' '])) (lowerStr s)
  let startp := fun s : Str => ql.isPrefixOf (lowerStr s)
  let multip := fun s : Str => chainMatch (splitWs q) (lowerStr s)
  (if exactp title then 15 else 0) + (if wordp title then 12 else 0)
    + (if startp title then 10 else 0)
    + (if optLike exactp subtitle then 8 else 0) + (if optLike wordp subtitle then 6 else 0)
    + (if optLike startp subtitle then 5 else 0)
    + (if exactp content then 6 else 0) + (if wordp content then 4 else 0)
    + (if startp content then 2 else 0)
    + (if exactp username then 5 else 0) + (if optLike exactp display_name then 5 else 0)
    + (if optLike exactp bio then 3 else 0)
    + (if multip title then 3 else 0) + (if multip content then 2 else 0)

/-! ## General list helpers -/

theorem map_eq_self_of {α : Type} {f : α → α} {l : List α} (h : ∀ a ∈ l, f a = a) :
    l.map f = l := by
  induction l with
  | nil => rfl
  | cons a l ih =>
    simp only [List.map_cons]
    rw [h a (by simp), ih (fun b hb => h b (by simp [hb]))]

theorem find?_map_pres {α : Type} {p : α → Bool} {f : α → α}
    (hf : ∀ a, p (f a) = p a) (l : List α) :
    (l.map f).find? p = (l.find? p).map f := by
  induction l with
  | nil => rfl
  | cons a l ih =>
    simp only [List.map_cons]
    cases hpa : p a with
    | true =>
      rw [List.find?_cons_of_pos _ ((hf a).trans hpa), List.find?_cons_of_pos _ hpa]
      rfl
    | false =>
      rw [List.find?_cons_of_neg _ (by simp [(hf a).trans hpa]),
        List.find?_cons_of_neg _ (by simp [hpa]), ih]

/-! ## C1: publish is one-way -/

/-- A publish whose conditional update matches no row returns the collapsed
error and leaves the store untouched. -/
theorem publish_no_hit (db : DB) (article_id : ArticleId) (author_id : UserId) (now : Time)
    (h0 : db.articles.countP (fun a => decide (publishHit article_id author_id a)) = 0) :
    publish_article article_id author_id now db = (db, false) := by
  have hall : ∀ a ∈ db.articles,
      (if publishHit article_id author_id a then publishSet now a else a) = a := by
    intro a ha
    have hna := List.countP_eq_zero.mp h0 a ha
    rw [if_neg (by simpa using hna)]
  simp only [publish_article, h0, map_eq_self_of hall]
  rfl

/-- The publish update keeps the row id. -/
theorem publish_update_id (article_id : ArticleId) (author_id : UserId) (now : Time)
    (a : Article) :
    (if publishHit article_id author_id a then publishSet now a else a).id = a.id := by
  by_cases h : publishHit article_id author_id a <;> simp [h, publishSet]

/-- C1: once `publish` has succeeded on an article (its conditional update
`status = draft AND author = caller` affected a row), any second publish
call on that article — by any caller — returns a non-success error and
changes nothing, so `published_at` is untouched by the second call; and any
publish whose conditional update affects zero rows returns an error and
changes no article fields. -/
theorem publish_one_way (db : DB) (article_id : ArticleId) (author_id : UserId) (now : Time)
    (hids : (db.articles.map Article.id).Nodup)
    (hok : (publish_article article_id author_id now db).2 = true) :
    (∀ (author2 : UserId) (now2 : Time),
        publish_article article_id author2 now2 (publish_article article_id author_id now db).1
          = ((publish_article article_id author_id now db).1, false))
    ∧ (∀ (db2 : DB) (author2 : UserId) (now2 : Time),
        db2.articles.countP (fun a => decide (publishHit article_id author2 a)) = 0 →
        publish_article article_id author2 now2 db2 = (db2, false)) := by
  refine ⟨?_, fun db2 author2 now2 h0 => publish_no_hit db2 article_id author2 now2 h0⟩
  intro author2 now2
  have h0 : db.articles.countP (fun a => decide (publishHit article_id author_id a)) ≠ 0 := by
    simpa [publish_article] using hok
  have hex : ∃ a ∈ db.articles, publishHit article_id author_id a := by
    by_contra hcon
    push_neg at hcon
    exact h0 (List.countP_eq_zero.mpr (by intro a ha; simpa using hcon a ha))
  obtain ⟨a0, ha0mem, ha0⟩ := hex
  apply publish_no_hit
  apply List.countP_eq_zero.mpr
  intro b hb
  simp only [publish_article] at hb
  obtain ⟨a, hamem, hab⟩ := List.mem_map.mp hb
  simp only [decide_eq_true_eq]
  intro hhit
  by_cases hid : a.id = article_id
  · have haa0 : a = a0 := by
      apply List.inj_on_of_nodup_map hids hamem ha0mem
      rw [hid, ha0.1]
    subst haa0
    have : b = publishSet now a := by rw [← hab, if_pos ha0]
    rw [this] at hhit
    exact absurd hhit.2.2 (by simp [publishSet])
  · have : b.id = a.id := by rw [← hab]; exact publish_update_id _ _ _ _
    exact hid (by rw [← this, hhit.1])

/-- Concrete baseline article row used by witnesses. -/
def articleBase : Article :=
  { id := 1, title := some "t".toList, subtitle := none, content := "c".toList,
    content_html := "c".toList, excerpt := none, featured_image_url := none,
    author_id := 7, publication_id := none, status := ArticleStatus.draft,
    is_member_only := some false, is_featured := false, paywall_position := none,
    slug := "t".toList, tags := none, categories := none, reading_time_minutes := 1,
    claps_count := 0, comments_count := 0, bookmarks_count := 0, views_count := 0,
    reads_count := 0, published_at := none, created_at := 0, updated_at := 0,
    last_auto_save := none, auto_save_version := 1 }

/-- A one-draft store for the publish witness. -/
def dbPublishW : DB := { articles := [articleBase], claps := [], bookmarks := [] }

/-- Witness for C1 at a concrete store: the first publish succeeds and the
second fails without changing the store. -/
theorem publish_one_way_witness :
    ((dbPublishW.articles.map Article.id).Nodup
        ∧ (publish_article 1 7 100 dbPublishW).2 = true)
    ∧ publish_article 1 7 200 (publish_article 1 7 100 dbPublishW).1
        = ((publish_article 1 7 100 dbPublishW).1, false) := by
  refine ⟨⟨by decide, by decide⟩, ?_⟩
  exact (publish_one_way dbPublishW 1 7 100 (by decide) (by decide)).1 7 200

/-! ## C2, C3: clap toggle -/

theorem countP_split {α : Type} (p q : α → Bool) (l : List α) :
    l.countP p = l.countP (fun a => p a && q a) + l.countP (fun a => p a && !q a) := by
  induction l with
  | nil => simp
  | cons a l ih =>
    by_cases hp : p a <;> by_cases hq : q a <;>
      simp [List.countP_cons, hp, hq, ih] <;> omega

/-- Writing a recomputed total into the article row and reading it back
through the row lookup yields that total. -/
theorem claps_write_read (articles : List Article) (article_id : ArticleId) (total : Int)
    (hart : (articles.find? (fun a => decide (a.id = article_id))).isSome = true) :
    ((articles.map (fun a =>
        if a.id = article_id then { a with claps_count := total } else a)).find?
          (fun a => decide (a.id = article_id))).map Article.claps_count = some total := by
  have hpres : ∀ a : Article,
      (decide ((if a.id = article_id then { a with claps_count := total } else a).id
        = article_id)) = decide (a.id = article_id) := by
    intro a; by_cases h : a.id = article_id <;> simp [h]
  rw [find?_map_pres hpres]
  obtain ⟨a, ha⟩ := Option.isSome_iff_exists.mp hart
  have hid : a.id = article_id := by simpa using List.find?_some ha
  rw [ha]
  simp [hid]

/-- After any clap toggle the stored `claps_count` is the recomputed row
count. -/
theorem storedClapsCount_clap (db : DB) (article_id : ArticleId) (user_id : UserId) (r : Int)
    (hart : (db.articles.find? (fun a => decide (a.id = article_id))).isSome = true) :
    storedClapsCount article_id (clap_article article_id user_id r db).1
      = some (clapRowCount article_id (clap_article article_id user_id r db).1) := by
  cases hf : db.claps.find? (fun c => decide (clapMine article_id user_id c)) with
  | none =>
    simp only [clap_article, hf, storedClapsCount, clapRowCount]
    exact claps_write_read _ _ _ hart
  | some c0 =>
    simp only [clap_article, hf, storedClapsCount, clapRowCount]
    exact claps_write_read _ _ _ hart

/-- The clap toggle keeps the article row findable. -/
theorem clap_article_art_isSome (db : DB) (article_id : ArticleId) (user_id : UserId) (r : Int)
    (hart : (db.articles.find? (fun a => decide (a.id = article_id))).isSome = true) :
    ((clap_article article_id user_id r db).1.articles.find?
        (fun a => decide (a.id = article_id))).isSome = true := by
  have hgen : ∀ total : Int,
      ((db.articles.map (fun a =>
          if a.id = article_id then { a with claps_count := total } else a)).find?
            (fun a => decide (a.id = article_id))).isSome = true := by
    intro total
    have hpres : ∀ a : Article,
        (decide ((if a.id = article_id then { a with claps_count := total } else a).id
          = article_id)) = decide (a.id = article_id) := by
      intro a; by_cases h : a.id = article_id <;> simp [h]
    rw [find?_map_pres hpres]
    obtain ⟨a, ha⟩ := Option.isSome_iff_exists.mp hart
    rw [ha]
    rfl
  cases hf : db.claps.find? (fun c => decide (clapMine article_id user_id c)) with
  | none => simp only [clap_article, hf]; exact hgen _
  | some c0 => simp only [clap_article, hf]; exact hgen _

/-- Clap rows after a toggle by a user with no current clap row: the
insert branch ran. -/
theorem clap_claps_absent (db : DB) (article_id : ArticleId) (user_id : UserId) (r : Int)
    (h : hasClapped article_id user_id db = false) :
    (clap_article article_id user_id r db).1.claps
      = db.claps ++ [⟨user_id, article_id, 1⟩] := by
  have hf : db.claps.find? (fun c => decide (clapMine article_id user_id c)) = none := by
    rw [List.find?_eq_none]
    intro c hc
    simp only [hasClapped] at h
    simpa using List.any_eq_false.mp h c hc
  simp [clap_article, hf]

/-- Clap rows after a toggle by a user holding a clap row: the delete
branch ran. -/
theorem clap_claps_present (db : DB) (article_id : ArticleId) (user_id : UserId) (r : Int)
    (h : hasClapped article_id user_id db = true) :
    (clap_article article_id user_id r db).1.claps
      = db.claps.filter (fun c => !(decide (clapMine article_id user_id c))) := by
  have hs : (db.claps.find? (fun c => decide (clapMine article_id user_id c))).isSome = true :=
    List.find?_isSome.mpr (List.any_eq_true.mp h)
  obtain ⟨c0, hc0⟩ := Option.isSome_iff_exists.mp hs
  simp [clap_article, hc0]

/-- C2: an immediate pair of clap toggles by the same user returns both the
stored `claps_count` and the user's personal clapped-state to their
pre-pair values; and a single toggle by a user who holds no clap row sets
the personal state to clapped and raises the stored `claps_count` (equal to
the row count, by the counter invariant) by exactly one. -/
theorem clap_toggle_pair (db : DB) (article_id : ArticleId) (user_id : UserId) (r r2 : Int)
    (huniq : db.claps.countP (fun c => decide (clapMine article_id user_id c)) ≤ 1)
    (hart : (db.articles.find? (fun a => decide (a.id = article_id))).isSome = true)
    (hinv : storedClapsCount article_id db = some (clapRowCount article_id db)) :
    hasClapped article_id user_id
        ((clap_article article_id user_id r2 (clap_article article_id user_id r db).1).1)
      = hasClapped article_id user_id db
    ∧ storedClapsCount article_id
        ((clap_article article_id user_id r2 (clap_article article_id user_id r db).1).1)
      = storedClapsCount article_id db
    ∧ (hasClapped article_id user_id db = false →
        hasClapped article_id user_id (clap_article article_id user_id r db).1 = true
        ∧ storedClapsCount article_id (clap_article article_id user_id r db).1
            = some (clapRowCount article_id db + 1)) := by
  have hart1 := clap_article_art_isSome db article_id user_id r hart
  have hrow : decide (clapMine article_id user_id (⟨user_id, article_id, 1⟩ : Clap)) = true := by
    simp [clapMine]
  cases h0 : hasClapped article_id user_id db with
  | false =>
    have h1claps := clap_claps_absent db article_id user_id r h0
    have h1 : hasClapped article_id user_id (clap_article article_id user_id r db).1 = true := by
      simp only [hasClapped, h1claps]
      rw [List.any_append]
      simp [hrow]
    have h2claps := clap_claps_present (clap_article article_id user_id r db).1
      article_id user_id r2 h1
    have hfilter : db.claps.filter (fun c => !(decide (clapMine article_id user_id c)))
        = db.claps := by
      rw [List.filter_eq_self]
      intro c hc
      simpa using List.any_eq_false.mp h0 c hc
    have h2 : (clap_article article_id user_id r2 (clap_article article_id user_id r db).1).1.claps
        = db.claps := by
      rw [h2claps, h1claps, List.filter_append, hfilter]
      simp [hrow]
    refine ⟨?_, ?_, fun _ => ⟨h1, ?_⟩⟩
    · simp only [hasClapped] at h0 ⊢
      rw [h2]
      exact h0
    · have hs2 := storedClapsCount_clap (clap_article article_id user_id r db).1
        article_id user_id r2 hart1
      rw [hs2, hinv]
      simp only [clapRowCount]
      rw [h2]
    · have hs1 := storedClapsCount_clap db article_id user_id r hart
      rw [hs1]
      simp only [clapRowCount]
      rw [h1claps, List.countP_append]
      simp
  | true =>
    have h1claps := clap_claps_present db article_id user_id r h0
    have h1 : hasClapped article_id user_id (clap_article article_id user_id r db).1 = false := by
      simp only [hasClapped, h1claps]
      rw [List.any_eq_false]
      intro c hc
      simp only [List.mem_filter] at hc
      simpa using hc.2
    have h2claps := clap_claps_absent (clap_article article_id user_id r db).1
      article_id user_id r2 h1
    have hmine1 : db.claps.countP (fun c => decide (clapMine article_id user_id c)) = 1 := by
      have hpos : 0 < db.claps.countP (fun c => decide (clapMine article_id user_id c)) := by
        obtain ⟨c, hc, hcm⟩ := List.any_eq_true.mp h0
        calc 0 < [c].countP (fun c => decide (clapMine article_id user_id c)) := by
              simp [List.countP_cons, hcm]
          _ ≤ db.claps.countP (fun c => decide (clapMine article_id user_id c)) := by
              apply List.Sublist.countP_le
              simpa using hc
      omega
    have hcount2 : clapRowCount article_id
        (clap_article article_id user_id r2 (clap_article article_id user_id r db).1).1
        = clapRowCount article_id db := by
      have hone : List.countP (fun c : Clap => decide (c.article_id = article_id))
          [(⟨user_id, article_id, 1⟩ : Clap)] = 1 := by simp
      have hsplit := countP_split (fun c : Clap => decide (c.article_id = article_id))
        (fun c => decide (clapMine article_id user_id c)) db.claps
      beta_reduce at hsplit
      have hcongr : db.claps.countP (fun c =>
          decide (c.article_id = article_id) && decide (clapMine article_id user_id c))
          = db.claps.countP (fun c => decide (clapMine article_id user_id c)) := by
        apply List.countP_congr
        intro c _
        constructor
        · intro hc
          exact (Bool.and_eq_true _ _).mp hc |>.2
        · intro hc
          have hm : clapMine article_id user_id c := by simpa using hc
          simp [hm.2, hm]
      simp only [clapRowCount, h2claps, h1claps, List.countP_append, List.countP_filter, hone]
      omega
    refine ⟨?_, ?_, ?_⟩
    · simp only [hasClapped]
      rw [h2claps, List.any_append]
      simp [hrow]
    · have hart2 := clap_article_art_isSome (clap_article article_id user_id r db).1
        article_id user_id r2 hart1
      have hs2 := storedClapsCount_clap (clap_article article_id user_id r db).1
        article_id user_id r2 hart1
      rw [hs2, hinv, hcount2]
    · intro hcon
      simp [h0] at hcon

/-- C3: after either branch of the clap toggle, the stored `claps_count`
equals the `COUNT(*)` of clap rows for the article, and the returned total
equals that same count. -/
theorem clap_count_recomputed (db : DB) (article_id : ArticleId) (user_id : UserId) (r : Int)
    (hart : (db.articles.find? (fun a => decide (a.id = article_id))).isSome = true) :
    storedClapsCount article_id (clap_article article_id user_id r db).1
      = some (clapRowCount article_id (clap_article article_id user_id r db).1)
    ∧ (clap_article article_id user_id r db).2.1
      = clapRowCount article_id (clap_article article_id user_id r db).1 := by
  refine ⟨storedClapsCount_clap db article_id user_id r hart, ?_⟩
  cases hf : db.claps.find? (fun c => decide (clapMine article_id user_id c)) with
  | none => simp only [clap_article, hf, clapRowCount]
  | some c0 => simp only [clap_article, hf, clapRowCount]

/-- A one-draft, no-claps store shared by concrete witnesses. -/
def dbOneDraft : DB := { articles := [articleBase], claps := [], bookmarks := [] }

/-- Witness for C2: toggling twice at a concrete store restores the
personal state, and the hypotheses hold there. -/
theorem clap_toggle_pair_witness :
    (dbOneDraft.claps.countP (fun c => decide (clapMine 1 5 c)) ≤ 1
      ∧ (dbOneDraft.articles.find? (fun a => decide (a.id = 1))).isSome = true
      ∧ storedClapsCount 1 dbOneDraft = some (clapRowCount 1 dbOneDraft))
    ∧ hasClapped 1 5 ((clap_article 1 5 1 (clap_article 1 5 1 dbOneDraft).1).1)
        = hasClapped 1 5 dbOneDraft := by
  refine ⟨⟨by decide, by decide, by decide⟩, ?_⟩
  exact (clap_toggle_pair dbOneDraft 1 5 1 1 (by decide) (by decide) (by decide)).1

/-- Witness for C3 at a concrete store. -/
theorem clap_count_recomputed_witness :
    ((dbOneDraft.articles.find? (fun a => decide (a.id = 1))).isSome = true)
    ∧ (clap_article 1 5 3 dbOneDraft).2.1
        = clapRowCount 1 (clap_article 1 5 3 dbOneDraft).1 := by
  refine ⟨by decide, ?_⟩
  exact (clap_count_recomputed dbOneDraft 1 5 3 (by decide)).2

/-! ## C4: bookmark counters never go negative -/

theorem bookmark_article_nonneg (article_id : ArticleId) (user_id : UserId) (db : DB)
    (h : ∀ a ∈ db.articles, 0 ≤ a.bookmarks_count) :
    ∀ a ∈ (bookmark_article article_id user_id db).1.articles, 0 ≤ a.bookmarks_count := by
  intro a ha
  unfold bookmark_article at ha
  split at ha
  · exact h a ha
  · split at ha
    · exact h a ha
    · simp only at ha
      obtain ⟨b, hb, rfl⟩ := List.mem_map.mp ha
      by_cases hid : b.id = article_id
      · have := h b hb
        simp only [if_pos hid]
        omega
      · simp only [if_neg hid]
        exact h b hb

theorem unbookmark_article_nonneg (article_id : ArticleId) (user_id : UserId) (db : DB)
    (h : ∀ a ∈ db.articles, 0 ≤ a.bookmarks_count) :
    ∀ a ∈ (unbookmark_article article_id user_id db).1.articles, 0 ≤ a.bookmarks_count := by
  intro a ha
  by_cases hc : db.bookmarks.countP (fun b => decide (bookmarkMine article_id user_id b)) > 0
  · simp only [unbookmark_article, if_pos hc] at ha
    obtain ⟨b, hb, rfl⟩ := List.mem_map.mp ha
    by_cases hid : b.id = article_id
    · simp only [if_pos hid]
      exact le_max_right _ _
    · simp only [if_neg hid]
      exact h b hb
  · simp only [unbookmark_article, if_neg hc] at ha
    exact h a ha

theorem runBookmarkCalls_cons (call : BookmarkCall) (calls : List BookmarkCall) (db : DB) :
    runBookmarkCalls (call :: calls) db = runBookmarkCalls calls
      (match call with
       | BookmarkCall.add aid uid => (bookmark_article aid uid db).1
       | BookmarkCall.remove aid uid => (unbookmark_article aid uid db).1) := rfl

theorem runBookmarkCalls_nonneg (calls : List BookmarkCall) :
    ∀ db : DB, (∀ a ∈ db.articles, 0 ≤ a.bookmarks_count) →
      ∀ a ∈ (runBookmarkCalls calls db).articles, 0 ≤ a.bookmarks_count := by
  induction calls with
  | nil => intro db h; exact h
  | cons call calls ih =>
    intro db h
    rw [runBookmarkCalls_cons]
    cases call with
    | add aid uid => exact ih _ (bookmark_article_nonneg aid uid db h)
    | remove aid uid => exact ih _ (unbookmark_article_nonneg aid uid db h)

/-- C4: starting from a store with non-negative `bookmarks_count` values,
any sequence of bookmark/unbookmark calls keeps every `bookmarks_count`
non-negative; a bookmark of an already-bookmarked (existing, published)
article is a complete no-op reporting already-bookmarked; and an
unbookmark with no bookmark row deletes nothing and changes no counter. -/
theorem bookmarks_never_negative (calls : List BookmarkCall) (db : DB)
    (h : ∀ a ∈ db.articles, 0 ≤ a.bookmarks_count) :
    (∀ a ∈ (runBookmarkCalls calls db).articles, 0 ≤ a.bookmarks_count)
    ∧ (∀ (article_id : ArticleId) (user_id : UserId),
        articleExistsPublished article_id db = true →
        db.bookmarks.any (fun b => decide (bookmarkMine article_id user_id b)) = true →
        bookmark_article article_id user_id db = (db, BookmarkOutcome.alreadyBookmarked))
    ∧ (∀ (article_id : ArticleId) (user_id : UserId),
        db.bookmarks.any (fun b => decide (bookmarkMine article_id user_id b)) = false →
        unbookmark_article article_id user_id db = (db, UnbookmarkOutcome.notBookmarked)) := by
  refine ⟨runBookmarkCalls_nonneg calls db h, ?_, ?_⟩
  · intro article_id user_id hpub hbm
    unfold bookmark_article
    rw [if_neg (by rw [hpub]; simp), if_pos hbm]
  · intro article_id user_id hbm
    have hcount : db.bookmarks.countP
        (fun b => decide (bookmarkMine article_id user_id b)) = 0 := by
      apply List.countP_eq_zero.mpr
      intro b hb
      simpa using List.any_eq_false.mp hbm b hb
    have hfilter : db.bookmarks.filter
        (fun b => !(decide (bookmarkMine article_id user_id b))) = db.bookmarks := by
      rw [List.filter_eq_self]
      intro b hb
      simpa using List.any_eq_false.mp hbm b hb
    simp only [unbookmark_article, hcount, hfilter]
    rfl

/-- A published article and its one-article store, for bookmark witnesses. -/
def articlePublished : Article := { articleBase with status := ArticleStatus.published }

/-- One published article, no bookmarks. -/
def dbOnePublished : DB := { articles := [articlePublished], claps := [], bookmarks := [] }

/-- Witness for C4: two redundant unbookmarks followed by a bookmark keep
the counter non-negative at a concrete store. -/
theorem bookmarks_never_negative_witness :
    (∀ a ∈ dbOnePublished.articles, 0 ≤ a.bookmarks_count)
    ∧ ∀ a ∈ (runBookmarkCalls
        [BookmarkCall.remove 1 5, BookmarkCall.remove 1 5, BookmarkCall.add 1 5,
          BookmarkCall.remove 1 5, BookmarkCall.remove 1 5] dbOnePublished).articles,
        0 ≤ a.bookmarks_count := by
  refine ⟨by decide, ?_⟩
  exact (bookmarks_never_negative _ dbOnePublished (by decide)).1

/-! ## C5: auto-save field merging

The update branch of `auto_save_draft` COALESCE-merges only `title`,
`tags`, `categories` and `is_member_only`; it assigns `subtitle`,
`excerpt`, `featured_image_url` and `paywall_position` the raw request
values, so omitting those four clears the stored values. -/

/-- A draft that stores a subtitle, to observe whether an auto-save with an
omitted subtitle preserves it. -/
def articleDraftSubtitle : Article := { articleBase with subtitle := some "keep".toList }

/-- Store holding only `articleDraftSubtitle`. -/
def dbDraftSubtitle : DB := { articles := [articleDraftSubtitle], claps := [], bookmarks := [] }

/-- An auto-save request for that draft that omits every optional field. -/
def reqOmitAll : AutoSaveDraftRequest :=
  { article_id := some 1, title := none, subtitle := none, content := "new".toList,
    excerpt := none, featured_image_url := none, tags := none, categories := none,
    is_member_only := none, paywall_position := none }

/-- Counterexample to C5: the stored subtitle is `some "keep"` before the
auto-save and NULL afterwards, although the request omitted `subtitle` —
an omitted field is not left unchanged. -/
theorem auto_save_clobbers_subtitle :
    ((dbDraftSubtitle.articles.find? (fun a => decide (a.id = 1))).map Article.subtitle
        = some (some "keep".toList))
    ∧ (((auto_save_draft 7 reqOmitAll 5 99 [] dbDraftSubtitle).1.articles.find?
        (fun a => decide (a.id = 1))).map Article.subtitle = some none) := by
  decide

/-- C5 (amended): for an auto-save of an existing draft owned by the
caller, omitted `title`, `tags`, `categories` and `is_member_only` are
COALESCE-merged and leave the stored fields unchanged, while `subtitle`,
`excerpt`, `featured_image_url` and `paywall_position` are always
overwritten with the request value (NULL when omitted); `content`
overwrites both `content` and `content_html`; `auto_save_version`
increments by exactly 1. -/
theorem auto_save_merge_semantics (author_id : UserId) (req : AutoSaveDraftRequest)
    (now : Time) (new_id : ArticleId) (new_slug : Str) (db : DB) (i : ArticleId)
    (hreq : req.article_id = some i)
    (hids : (db.articles.map Article.id).Nodup)
    (a : Article) (ha : a ∈ db.articles) (hw : autoSaveWhere i author_id a) :
    ∀ b ∈ (auto_save_draft author_id req now new_id new_slug db).1.articles, b.id = i →
      ((req.title = none → b.title = a.title)
        ∧ (req.tags = none → b.tags = a.tags)
        ∧ (req.categories = none → b.categories = a.categories)
        ∧ (req.is_member_only = none → b.is_member_only = a.is_member_only)
        ∧ b.subtitle = req.subtitle
        ∧ b.excerpt = req.excerpt
        ∧ b.featured_image_url = req.featured_image_url
        ∧ b.paywall_position = req.paywall_position
        ∧ b.content = req.content
        ∧ b.content_html = req.content
        ∧ b.auto_save_version = a.auto_save_version + 1) := by
  intro b hb hbid
  simp only [auto_save_draft, hreq] at hb
  obtain ⟨c, hcmem, hcb⟩ := List.mem_map.mp hb
  have hcid : c.id = i := by
    rw [← hbid, ← hcb]
    by_cases hw2 : autoSaveWhere i author_id c <;> simp [hw2, autoSaveSet]
  have hca : c = a := List.inj_on_of_nodup_map hids hcmem ha (by rw [hcid, hw.1])
  subst hca
  have hbset : b = autoSaveSet req now c := by rw [← hcb, if_pos hw]
  subst hbset
  refine ⟨?_, ?_, ?_, ?_, rfl, rfl, rfl, rfl, rfl, rfl, rfl⟩ <;>
    intro hn <;> simp [autoSaveSet, hn]

/-- Witness for C5 (amended) at the concrete store of the counterexample. -/
theorem auto_save_merge_semantics_witness :
    (reqOmitAll.article_id = some 1
      ∧ (dbDraftSubtitle.articles.map Article.id).Nodup
      ∧ articleDraftSubtitle ∈ dbDraftSubtitle.articles
      ∧ autoSaveWhere 1 7 articleDraftSubtitle)
    ∧ ∀ b ∈ (auto_save_draft 7 reqOmitAll 5 99 [] dbDraftSubtitle).1.articles, b.id = 1 →
        ((reqOmitAll.title = none → b.title = articleDraftSubtitle.title)
          ∧ (reqOmitAll.tags = none → b.tags = articleDraftSubtitle.tags)
          ∧ (reqOmitAll.categories = none → b.categories = articleDraftSubtitle.categories)
          ∧ (reqOmitAll.is_member_only = none →
              b.is_member_only = articleDraftSubtitle.is_member_only)
          ∧ b.subtitle = reqOmitAll.subtitle
          ∧ b.excerpt = reqOmitAll.excerpt
          ∧ b.featured_image_url = reqOmitAll.featured_image_url
          ∧ b.paywall_position = reqOmitAll.paywall_position
          ∧ b.content = reqOmitAll.content
          ∧ b.content_html = reqOmitAll.content
          ∧ b.auto_save_version = articleDraftSubtitle.auto_save_version + 1) := by
  refine ⟨⟨rfl, by decide, by decide, by decide⟩, ?_⟩
  exact auto_save_merge_semantics 7 reqOmitAll 5 99 [] dbDraftSubtitle 1 rfl (by decide)
    articleDraftSubtitle (by decide) (by decide)

/-! ## C6: pagination clamping -/

/-- Counterexample to C6: the keyword-search path clamps nothing — a
requested limit of 500 is used as-is, exceeding the claimed bound of 100. -/
theorem search_limit_unclamped :
    search_articles_limit (some 500) = 500
    ∧ ¬ search_articles_limit (some 500) ≤ 100 := by
  decide

/-- C6 (amended): the follow feed and the trending read clamp their
effective limit to at most 100 and their effective page to at least 1 for
every input; keyword search instead uses the requested limit unclamped and
clamps only its computed offset at 0. -/
theorem pagination_clamps :
    (∀ page limit : Option Int,
        1 ≤ get_user_feed_page page ∧ get_user_feed_limit limit ≤ 100
          ∧ 1 ≤ get_trending_page page ∧ get_trending_limit limit ≤ 100)
    ∧ (∀ page limit : Option Int,
        search_articles_limit limit = limit.getD 20
          ∧ 0 ≤ search_articles_offset page limit) := by
  exact ⟨fun page limit =>
      ⟨le_max_right _ _, min_le_right _ _, le_max_right _ _, min_le_right _ _⟩,
    fun page limit => ⟨rfl, le_max_right _ _⟩⟩

/-! ## C7: the slug shape

`generate_slug` keeps Unicode alphanumerics (`char::is_alphanumeric`), so
the `^[a-z0-9]+(-[a-z0-9]+)*$` shape can only be asserted for ASCII
titles; and for a title with no alphanumeric characters at all the result
is empty — the create path has no fallback (`ensure_unique_slug` receives
the empty base directly; the fixed base `"draft"` appears only in
auto-save's create-new-draft branch, independent of any title). -/

/-- No two adjacent dashes. -/
def noDouble : Str → Bool
  | [] => true
  | [_] => true
  | a :: b :: rest => !(a == '-' && b == '-') && noDouble (b :: rest)

theorem noDouble_tail {a : Char} {l : Str} (h : noDouble (a :: l) = true) :
    noDouble l = true := by
  cases l with
  | nil => rfl
  | cons b rest => exact ((Bool.and_eq_true _ _).mp h).2

theorem noDouble_cons {c : Char} {l : Str} (h : noDouble l = true)
    (hn : ¬(c = '-' ∧ l.head? = some '-')) : noDouble (c :: l) = true := by
  cases l with
  | nil => rfl
  | cons b rest =>
    rw [noDouble]
    refine (Bool.and_eq_true _ _).mpr ⟨?_, h⟩
    simp only [Bool.not_eq_true', Bool.and_eq_false_iff, beq_eq_false_iff_ne]
    by_cases hc : c = '-'
    · right
      intro hb
      exact hn ⟨hc, by rw [hb]; rfl⟩
    · left
      exact hc

theorem collapseDashes_cons (c : Char) (l : Str) :
    collapseDashes (c :: l) =
      if c = '-' ∧ (collapseDashes l).head? = some '-' then collapseDashes l
      else c :: collapseDashes l := rfl

theorem mem_collapseDashes {c : Char} {l : Str} (h : c ∈ collapseDashes l) : c ∈ l := by
  induction l with
  | nil => simpa [collapseDashes] using h
  | cons a l ih =>
    rw [collapseDashes_cons] at h
    split at h
    · exact List.mem_cons_of_mem a (ih h)
    · rcases List.mem_cons.mp h with h | h
      · exact h ▸ List.mem_cons_self a l
      · exact List.mem_cons_of_mem a (ih h)

theorem noDouble_collapseDashes (l : Str) : noDouble (collapseDashes l) = true := by
  induction l with
  | nil => rfl
  | cons a l ih =>
    rw [collapseDashes_cons]
    split
    · exact ih
    · exact noDouble_cons ih (by assumption)

theorem dropTrailingDashes_isPrefix (l : Str) : dropTrailingDashes l <+: l := by
  induction l with
  | nil => exact List.nil_prefix
  | cons c l ih =>
    rw [dropTrailingDashes]
    split
    · exact List.nil_prefix
    · exact (List.prefix_cons_inj c).mpr ih

theorem noDouble_append_left {xs ys : Str} (h : noDouble (xs ++ ys) = true) :
    noDouble xs = true := by
  induction xs with
  | nil => rfl
  | cons a xs ih =>
    cases xs with
    | nil => rfl
    | cons b xs2 =>
      rw [List.cons_append, List.cons_append] at h
      rw [noDouble]
      refine (Bool.and_eq_true _ _).mpr ⟨((Bool.and_eq_true _ _).mp h).1, ?_⟩
      exact ih (by rw [List.cons_append]; exact ((Bool.and_eq_true _ _).mp h).2)

theorem noDouble_append_right {xs ys : Str} (h : noDouble (xs ++ ys) = true) :
    noDouble ys = true := by
  induction xs with
  | nil => exact h
  | cons a xs ih => exact ih (noDouble_tail (by rwa [List.cons_append] at h))

theorem noDouble_dropWhile (p : Char → Bool) (l : Str) (h : noDouble l = true) :
    noDouble (l.dropWhile p) = true := by
  have := List.takeWhile_append_dropWhile p l
  exact noDouble_append_right (by rwa [this])

theorem noDouble_dropTrailingDashes (l : Str) (h : noDouble l = true) :
    noDouble (dropTrailingDashes l) = true := by
  obtain ⟨t, ht⟩ := dropTrailingDashes_isPrefix l
  exact noDouble_append_left (by rwa [ht])

theorem dropTrailingDashes_head? {l : Str} (h : dropTrailingDashes l ≠ []) :
    (dropTrailingDashes l).head? = l.head? := by
  cases l with
  | nil => rfl
  | cons c rest =>
    rw [dropTrailingDashes] at h ⊢
    split at h
    · exact absurd rfl h
    · rw [if_neg (by assumption)]
      rfl

theorem dropTrailingDashes_getLast? (l : Str) :
    (dropTrailingDashes l).getLast? ≠ some '-' := by
  induction l with
  | nil => simp [dropTrailingDashes]
  | cons c rest ih =>
    rw [dropTrailingDashes]
    split
    · simp
    · rename_i hcond
      cases hr : dropTrailingDashes rest with
      | nil =>
        have hc : ¬ c = '-' := fun hc => hcond ⟨hr, hc⟩
        rw [List.getLast?_singleton]
        intro hs
        exact hc (by injection hs)
      | cons d r2 =>
        rw [List.getLast?_cons_cons]
        rw [hr] at ih
        exact ih

/-- For an ASCII character, the slug pipeline's per-character stage
(lower-case, space to dash, keep alphanumerics and dashes) only lets
through `[a-z0-9]` characters and dashes. -/
theorem ascii_slug_char : ∀ n : Nat, n < 128 →
    isSlugKeep (if (Char.ofNat n).toLower = ' ' then '-' else (Char.ofNat n).toLower) = true →
    isLowerDigit (if (Char.ofNat n).toLower = ' ' then '-' else (Char.ofNat n).toLower) = true
      ∨ (if (Char.ofNat n).toLower = ' ' then '-' else (Char.ofNat n).toLower) = '-' := by
  decide

theorem slugWordRest_bounded (n : Nat) : ∀ l : Str, l.length ≤ n →
    (∀ c ∈ l, isLowerDigit c = true ∨ c = '-') → noDouble l = true →
    l.getLast? ≠ some '-' → slugWordRest l = true := by
  induction n with
  | zero =>
    intro l hlen _ _ _
    have hnil : l = [] := List.eq_nil_of_length_eq_zero (Nat.le_zero.mp hlen)
    subst hnil
    rfl
  | succ n ih =>
    intro l hlen hclass hnd hlast
    cases l with
    | nil => rfl
    | cons c rest =>
      by_cases hc : c = '-'
      · subst hc
        cases rest with
        | nil => exact absurd (List.getLast?_singleton _) hlast
        | cons d rest2 =>
          have hd : ¬ d = '-' := by
            intro hdd
            subst hdd
            simp [noDouble] at hnd
          have hdclass : isLowerDigit d = true :=
            (hclass d (by simp)).resolve_right hd
          have hlast2 : rest2.getLast? ≠ some '-' := by
            cases rest2 with
            | nil => simp
            | cons e r3 =>
              rw [List.getLast?_cons_cons, List.getLast?_cons_cons] at hlast
              exact hlast
          have hrest2 : slugWordRest rest2 = true := by
            apply ih rest2 (by simp only [List.length_cons] at hlen; omega)
            · intro x hx; exact hclass x (by simp [hx])
            · exact noDouble_tail (noDouble_tail hnd)
            · exact hlast2
          rw [slugWordRest, if_pos rfl, slugWordStart, hdclass, hrest2]
          rfl
      · have hcclass : isLowerDigit c = true := (hclass c (by simp)).resolve_right hc
        have hlastr : rest.getLast? ≠ some '-' := by
          cases rest with
          | nil => simp
          | cons e r3 =>
            rw [List.getLast?_cons_cons] at hlast
            exact hlast
        have hrest : slugWordRest rest = true := by
          apply ih rest (by simp only [List.length_cons] at hlen; omega)
          · intro x hx; exact hclass x (by simp [hx])
          · exact noDouble_tail hnd
          · exact hlastr
        rw [slugWordRest, if_neg hc, hcclass, hrest]
        rfl

/-- A non-empty dash-free-at-both-ends, no-double-dash string over the
class `[a-z0-9-]` matches `^[a-z0-9]+(-[a-z0-9]+)*$`. -/
theorem matchesSlugShape_of {l : Str} (hne : l ≠ [])
    (hclass : ∀ c ∈ l, isLowerDigit c = true ∨ c = '-')
    (hhead : l.head? ≠ some '-') (hnd : noDouble l = true)
    (hlast : l.getLast? ≠ some '-') : matchesSlugShape l = true := by
  cases l with
  | nil => exact absurd rfl hne
  | cons c rest =>
    have hc : ¬ c = '-' := by
      intro hcc
      exact hhead (by rw [hcc]; rfl)
    have hcclass : isLowerDigit c = true := (hclass c (by simp)).resolve_right hc
    have hlastr : rest.getLast? ≠ some '-' := by
      cases rest with
      | nil => simp
      | cons e r3 =>
        rw [List.getLast?_cons_cons] at hlast
        exact hlast
    have hrest : slugWordRest rest = true := by
      apply slugWordRest_bounded rest.length rest (Nat.le_refl _)
      · intro x hx; exact hclass x (by simp [hx])
      · exact noDouble_tail hnd
      · exact hlastr
    rw [matchesSlugShape, slugWordStart, hcclass, hrest]
    rfl

/-- Counterexample to C7: a title with no alphanumeric character at all
derives the empty slug, which is not a non-empty `^[a-z0-9]+(-[a-z0-9]+)*$`
string — and the derivation (used directly by `create_article`) applies no
fallback. -/
theorem generate_slug_empty_on_symbols :
    generate_slug "!!!".toList = [] ∧ matchesSlugShape ([] : Str) = false := by
  decide

/-- C7 (amended): for any ASCII title, `generate_slug` returns either the
empty string (no fallback is substituted by the derivation; `"draft"` is
only the fixed base of auto-save's create-new-draft branch) or a non-empty
string matching `^[a-z0-9]+(-[a-z0-9]+)*$`. -/
theorem generate_slug_shape (title : Str) (hascii : ∀ c ∈ title, c.toNat < 128) :
    generate_slug title = [] ∨ matchesSlugShape (generate_slug title) = true := by
  by_cases hne : generate_slug title = []
  · exact Or.inl hne
  refine Or.inr ?_
  set filtered := ((title.map Char.toLower).map
    (fun c => if c = ' ' then '-' else c)).filter isSlugKeep with hfiltered
  set dw := (collapseDashes filtered).dropWhile (fun c => c = '-') with hdw
  have hslug : generate_slug title = dropTrailingDashes dw := rfl
  have hclassf : ∀ c ∈ filtered, isLowerDigit c = true ∨ c = '-' := by
    intro c hcf
    rw [hfiltered] at hcf
    obtain ⟨hcd, hkeep⟩ := List.mem_filter.mp hcf
    obtain ⟨c1, hc1, hc1e⟩ := List.mem_map.mp hcd
    obtain ⟨c0, hc0, hc0e⟩ := List.mem_map.mp hc1
    have hn := hascii c0 hc0
    have := ascii_slug_char c0.toNat hn
    rw [Char.ofNat_toNat] at this
    rw [← hc1e, ← hc0e] at hkeep ⊢
    exact this hkeep
  have hclassc : ∀ c ∈ collapseDashes filtered, isLowerDigit c = true ∨ c = '-' :=
    fun c hc => hclassf c (mem_collapseDashes hc)
  have hclassdw : ∀ c ∈ dw, isLowerDigit c = true ∨ c = '-' := by
    intro c hc
    apply hclassc
    rw [← List.takeWhile_append_dropWhile (fun c => decide (c = '-')) (collapseDashes filtered)]
    exact List.mem_append_right _ hc
  have hclass : ∀ c ∈ generate_slug title, isLowerDigit c = true ∨ c = '-' := by
    intro c hc
    rw [hslug] at hc
    exact hclassdw c (List.Sublist.mem hc (dropTrailingDashes_isPrefix dw).sublist)
  have hnd : noDouble (generate_slug title) = true := by
    rw [hslug]
    exact noDouble_dropTrailingDashes _
      (noDouble_dropWhile _ _ (noDouble_collapseDashes filtered))
  have hlast : (generate_slug title).getLast? ≠ some '-' := by
    rw [hslug]
    exact dropTrailingDashes_getLast? dw
  have hhead : (generate_slug title).head? ≠ some '-' := by
    rw [hslug]
    rw [dropTrailingDashes_head? (by rw [← hslug]; exact hne)]
    have := List.head?_dropWhile_not (fun c => decide (c = '-')) (collapseDashes filtered)
    intro hcon
    rw [hdw] at hcon
    rw [hcon] at this
    simp at this
  exact matchesSlugShape_of hne hclass hhead hnd hlast

/-- Witness for C7 (amended) on a concrete ASCII title. -/
theorem generate_slug_shape_witness :
    (∀ c ∈ "Hello, World 42!".toList, c.toNat < 128)
    ∧ (generate_slug "Hello, World 42!".toList = []
        ∨ matchesSlugShape (generate_slug "Hello, World 42!".toList) = true) := by
  refine ⟨by decide, ?_⟩
  exact generate_slug_shape "Hello, World 42!".toList (by decide)

/-! ## C8: trending score and ordering -/

theorem trendingLe_trans (now : Time) : ∀ a b c : Article,
    trendingLe now a b = true → trendingLe now b c = true → trendingLe now a c = true := by
  intro a b c hab hbc
  simp only [trendingLe, decide_eq_true_eq] at hab hbc ⊢
  rcases hab with h1 | ⟨h1, h2⟩ <;> rcases hbc with h3 | ⟨h3, h4⟩
  · exact Or.inl (h3.trans h1)
  · exact Or.inl (h3 ▸ h1)
  · exact Or.inl (by rw [h1]; exact h3)
  · exact Or.inr ⟨h1.trans h3, h4.trans h2⟩

theorem trendingLe_total (now : Time) : ∀ a b : Article,
    (trendingLe now a b || trendingLe now b a) = true := by
  intro a b
  simp only [trendingLe, Bool.or_eq_true, decide_eq_true_eq]
  rcases lt_trichotomy (trending_score now a) (trending_score now b) with h | h | h
  · exact Or.inr (Or.inl h)
  · rcases le_total (b.published_at.getD 0) (a.published_at.getD 0) with hp | hp
    · exact Or.inl (Or.inr ⟨h, hp⟩)
    · exact Or.inr (Or.inr ⟨h.symm, hp⟩)
  · exact Or.inl (Or.inl h)

/-- C8: the trending score is `claps*3 + comments*2 + reads*1 + views*0.1`
with a boost of 10 exactly when published within the last 24 hours — in
particular `claps=10, comments=5, reads=20, views=100`, published 2 hours
(7200 seconds) ago scores 80 — and every trending result page is ordered
by this score descending with ties broken by `published_at` descending. -/
theorem trending_score_and_order :
    (∀ (now : Time) (a : Article), a.claps_count = 10 → a.comments_count = 5 →
        a.reads_count = 20 → a.views_count = 100 → a.published_at = some (now - 7200) →
        trending_score now a = 80)
    ∧ (∀ (now : Time) (page limit window : Option Int) (db : DB),
        List.Pairwise (fun a b =>
            trending_score now b < trending_score now a
            ∨ (trending_score now a = trending_score now b
                ∧ b.published_at.getD 0 ≤ a.published_at.getD 0))
          (get_trending_articles now page limit window db)) := by
  constructor
  · intro now a h1 h2 h3 h4 h5
    simp only [trending_score, h1, h2, h3, h4, h5]
    have hb : ((now : ℚ) - ((now - 7200 : Int) : ℚ)) / 3600 < 24 := by
      have hc : ((now - 7200 : Int) : ℚ) = (now : ℚ) - 7200 := by push_cast; ring
      rw [hc]
      have h72 : (now : ℚ) - ((now : ℚ) - 7200) = 7200 := by ring
      rw [h72]
      norm_num
    rw [if_pos hb]
    norm_num
  · intro now page limit window db
    have hs := List.sorted_mergeSort (trendingLe_trans now) (trendingLe_total now)
      (db.articles.filter (trendingKeep now (window.getD 168)))
    simp only [get_trending_articles]
    apply List.Pairwise.sublist (List.take_sublist _ _)
    apply List.Pairwise.sublist (List.drop_sublist _ _)
    exact hs.imp (fun h => by simpa [trendingLe, decide_eq_true_eq] using h)

/-- The spec's example article, published 7200 seconds before time
1000000. -/
def articleTrendingEx : Article :=
  { articleBase with
    claps_count := 10
    comments_count := 5
    reads_count := 20
    views_count := 100
    status := ArticleStatus.published
    published_at := some (1000000 - 7200) }

/-- Witness for C8's example score at a concrete article and time. -/
theorem trending_score_example_witness :
    trending_score 1000000 articleTrendingEx = 80 :=
  trending_score_and_order.1 1000000 articleTrendingEx rfl rfl rfl rfl rfl

/-! ## C9: search relevance — a title match dominates content matches -/

theorem containsSub_iff {n h : Str} : containsSub n h = true ↔ n <:+: h := by
  induction h with
  | nil =>
    rw [containsSub, List.isPrefixOf_iff_prefix]
    constructor
    · intro hp; exact hp.isInfix
    · intro hi
      rcases hi with ⟨s, t, hst⟩
      have hn : n = [] := by
        cases s <;> cases n <;> simp_all
      subst hn
      exact List.nil_prefix
  | cons c rest ih =>
    rw [containsSub, Bool.or_eq_true, List.isPrefixOf_iff_prefix, ih, List.infix_cons_iff]

theorem containsSub_mono {w big s : Str} (hwb : w <:+: big)
    (h : containsSub big s = true) : containsSub w s = true :=
  containsSub_iff.mpr (hwb.trans (containsSub_iff.mp h))

theorem dropAfterFirst_isSome (w : Str) : ∀ s : Str,
    (dropAfterFirst w s).isSome = containsSub w s := by
  intro s
  induction s with
  | nil =>
    rw [dropAfterFirst, containsSub]
    split
    · rename_i hp; simp [hp]
    · rename_i hp
      simp only [Bool.not_eq_true] at hp
      simp [hp]
  | cons c rest ih =>
    rw [dropAfterFirst, containsSub]
    split
    · rename_i hp; simp [hp]
    · rename_i hp
      simp only [Bool.not_eq_true] at hp
      simp [hp, ih]

theorem chainMatch_single (w s : Str) : chainMatch [w] s = containsSub w s := by
  have h := dropAfterFirst_isSome w s
  cases hd : dropAfterFirst w s with
  | some r =>
    rw [hd] at h
    simp only [Option.isSome_some] at h
    simp [chainMatch, hd, ← h]
  | none =>
    rw [hd] at h
    simp only [Option.isSome_none] at h
    simp [chainMatch, hd, ← h]

/-- When the plain substring pattern misses, so do the space-delimited,
starts-with, and single-word chain patterns built from the same word. -/
theorem like_tiers_false {w s : Str} (h : containsSub w s = false) :
    containsSub (' ' :: (w ++ [' '])) s = false
    ∧ w.isPrefixOf s = false
    ∧ chainMatch [w] s = false := by
  refine ⟨?_, ?_, ?_⟩
  · by_contra hcon
    rw [Bool.not_eq_false] at hcon
    have hinf : w <:+: ' ' :: (w ++ [' ']) := by
      have he : ' ' :: (w ++ [' ']) = [' '] ++ w ++ [' '] := by simp
      rw [he]
      exact List.infix_append [' '] w [' ']
    have := containsSub_mono hinf hcon
    rw [h] at this
    cases this
  · by_contra hcon
    rw [Bool.not_eq_false] at hcon
    have := containsSub_iff.mpr (List.isPrefixOf_iff_prefix.mp hcon).isInfix
    rw [h] at this
    cases this
  · rw [chainMatch_single, h]

theorem optLike_tiers_false {w : Str} {o : Option Str}
    (h : optLike (fun s => containsSub w (lowerStr s)) o = false) :
    optLike (fun s => containsSub (' ' :: (w ++ [' '])) (lowerStr s)) o = false
    ∧ optLike (fun s => w.isPrefixOf (lowerStr s)) o = false := by
  cases o with
  | none => exact ⟨rfl, rfl⟩
  | some s =>
    simp only [optLike] at h ⊢
    exact ⟨(like_tiers_false h).1, (like_tiers_false h).2.1⟩

theorem ite_zero_nonneg (c : Prop) [Decidable c] {k : Int} (hk : 0 ≤ k) :
    0 ≤ if c then k else 0 := by
  split
  · exact hk
  · exact le_refl 0

theorem not_eq_true_of_eq_false {b : Bool} (h : b = false) : ¬ b = true := by
  rw [h]
  exact Bool.false_ne_true

/-- C9: for the single-word query "rust" and two articles where only the
first has "rust" (case-insensitively) in its title — and the second
matches at most through its content — the first scores at least the title
weight 15 while the second can reach at most 6+4+2+2 = 14 across every
combination of content tiers, so the title-matching article ranks strictly
higher under the score-descending relevance order. -/
theorem search_title_match_dominates
    (titleA : Str) (subA : Option Str) (contentA : Str) (userA : Str) (dispA : Option Str)
    (bioA : Option Str)
    (titleB : Str) (subB : Option Str) (contentB : Str) (userB : Str) (dispB : Option Str)
    (bioB : Option Str)
    (hA : containsSub "rust".toList (lowerStr titleA) = true)
    (hBt : containsSub "rust".toList (lowerStr titleB) = false)
    (hBs : optLike (fun s => containsSub "rust".toList (lowerStr s)) subB = false)
    (hBu : containsSub "rust".toList (lowerStr userB) = false)
    (hBd : optLike (fun s => containsSub "rust".toList (lowerStr s)) dispB = false)
    (hBb : optLike (fun s => containsSub "rust".toList (lowerStr s)) bioB = false) :
    15 ≤ relevance_score "rust".toList titleA subA contentA userA dispA bioA
    ∧ relevance_score "rust".toList titleB subB contentB userB dispB bioB ≤ 14
    ∧ relevance_score "rust".toList titleB subB contentB userB dispB bioB
        < relevance_score "rust".toList titleA subA contentA userA dispA bioA := by
  have hql : lowerStr "rust".toList = "rust".toList := rfl
  have hsp : splitWs "rust".toList = ["rust".toList] := rfl
  have hAscore : 15 ≤ relevance_score "rust".toList titleA subA contentA userA dispA bioA := by
    simp only [relevance_score, hql, hsp]
    rw [if_pos hA]
    iterate 13 refine le_add_of_le_of_nonneg ?_ (ite_zero_nonneg _ (by norm_num))
    exact le_refl 15
  have hBscore : relevance_score "rust".toList titleB subB contentB userB dispB bioB ≤ 14 := by
    obtain ⟨hBt2, hBt3, hBt4⟩ := like_tiers_false hBt
    obtain ⟨hBs2, hBs3⟩ := optLike_tiers_false hBs
    simp only [relevance_score, hql, hsp]
    rw [if_neg (not_eq_true_of_eq_false hBt), if_neg (not_eq_true_of_eq_false hBt2),
      if_neg (not_eq_true_of_eq_false hBt3), if_neg (not_eq_true_of_eq_false hBs),
      if_neg (not_eq_true_of_eq_false hBs2), if_neg (not_eq_true_of_eq_false hBs3),
      if_neg (not_eq_true_of_eq_false hBu), if_neg (not_eq_true_of_eq_false hBd),
      if_neg (not_eq_true_of_eq_false hBb), if_neg (not_eq_true_of_eq_false hBt4)]
    split_ifs <;> norm_num
  exact ⟨hAscore, hBscore, lt_of_le_of_lt hBscore (lt_of_lt_of_le (by norm_num) hAscore)⟩

/-- Witness for C9 at concrete articles: one has "Rust" in its title, the
other matches "rust" only inside its content. -/
theorem search_title_match_dominates_witness :
    (containsSub "rust".toList (lowerStr "Why Rust".toList) = true
      ∧ containsSub "rust".toList (lowerStr "Going fast".toList) = false
      ∧ optLike (fun s => containsSub "rust".toList (lowerStr s))
          (some "sorting in place".toList) = false
      ∧ containsSub "rust".toList (lowerStr "alice".toList) = false)
    ∧ relevance_score "rust".toList "Going fast".toList (some "sorting in place".toList)
        "all about rust and more rust".toList "alice".toList none none
      < relevance_score "rust".toList "Why Rust".toList none "no match here".toList
        "bob".toList none none := by
  refine ⟨⟨by decide, by decide, by decide, by decide⟩, ?_⟩
  exact (search_title_match_dominates "Why Rust".toList none "no match here".toList
    "bob".toList none none "Going fast".toList (some "sorting in place".toList)
    "all about rust and more rust".toList "alice".toList none none
    (by decide) (by decide) (by decide) (by decide) rfl rfl).2.2

/-! ## C10: auto-save stores raw content, create/update sanitize -/

/-- C10: both auto-save branches store the request content verbatim as
`content_html` — the stored value equals the raw content for every
possible sanitizer, which never enters either branch — while
`create_article` and the content branch of `update_article` store
`sanitize_html(content)`. -/
theorem auto_save_stores_raw_html (sanitize_html : Str → Str)
    (req : AutoSaveDraftRequest) (now : Time) (a : Article)
    (new_id : ArticleId) (new_slug : Str) (author_id : UserId)
    (creq : CreateArticleRequest) (cid : ArticleId) (cslug : Str) (cnow : Time)
    (content2 : Str) :
    (autoSaveSet req now a).content_html = req.content
    ∧ (autoSaveNewRow req now new_id new_slug author_id).content_html = req.content
    ∧ (create_article_row sanitize_html creq cid author_id cslug cnow).content_html
        = sanitize_html creq.content
    ∧ (update_article_content_set sanitize_html content2 cnow a).content_html
        = sanitize_html content2 :=
  ⟨rfl, rfl, rfl, rfl⟩

end Fastblog
